import Mathlib

/-
  Verification of the punch-detection / collision-scoring core of the
  AR Boxing repository (body15039/AR-Boxing).

  The corpus holds three near-duplicate implementations of the same game:
    - src/javascript.js          class OptimizedBoxingGame   (namespace Opt)
    - src/unnamed/part_000       class BoxingGame, velocity-bonus scoring (namespace PH)
    - src/unnamed/part_001       class BoxingGame, plain scoring (namespace WH)

  Conventions of the embedding:
    - JavaScript numbers are modelled as exact rationals; scores and point
      values are integers in every implementation, so they are modelled as Int.
    - Comparisons of a Euclidean length (Math.hypot, Math.sqrt of a sum of
      squares, THREE distanceTo) against a nonnegative threshold are encoded
      by comparing squares, which is equivalent for nonnegative quantities and
      keeps every definition computable over the rationals.
    - Calls into the external THREE library (camera projection, raycasting,
      unproject) are environment inputs of the embedding: they are passed in
      as function parameters, exactly at the call sites where the source calls
      the library.  The spec treats the renderer as an external collaborator.
    - Object identity (JavaScript reference identity, used by the filter
      removal idiom) is modelled by an id field on each pooled entity.
-/

set_option maxHeartbeats 1000000

/-- A 3D position or velocity, as used for THREE object positions. -/
structure V3 where
  x : ℚ
  y : ℚ
  z : ℚ
  deriving DecidableEq

/-- Squared Euclidean distance between two 3D points (distanceTo squared). -/
def distSq (a b : V3) : ℚ :=
  (a.x - b.x) ^ 2 + (a.y - b.y) ^ 2 + (a.z - b.z) ^ 2

/-- JavaScript Math.round: round half toward positive infinity,
which is the floor of the argument plus one half. -/
def jsRound (q : ℚ) : ℤ := Int.floor (q + 1 / 2)

namespace Opt

/-- this.punchCooldown = 350 in src/javascript.js. -/
def punchCooldown : ℚ := 350

/-- this.punchVelocityThreshold = 10 in src/javascript.js. -/
def punchVelocityThreshold : ℚ := 10

/-- this.punchDistanceThreshold = 90 in src/javascript.js. -/
def punchDistanceThreshold : ℚ := 90

/-- Embedding of the score update of hitObject in src/javascript.js
(this.score = Math.max(0, this.score + points)). -/
def hitScore (score points : ℤ) : ℤ := max 0 (score + points)

end Opt

namespace PH

/-- this.punchThreshold = 25 in src/unnamed/part_000. -/
def punchThreshold : ℚ := 25

/-- this.punchCooldown = 200 in src/unnamed/part_000. -/
def punchCooldown : ℚ := 200

/-- this.punchRange = 0.8 in src/unnamed/part_000. -/
def punchRange : ℚ := 0.8

/-- Velocity bonus factor of hitObject in src/unnamed/part_000:
Math.min(2.0, velocity / this.punchThreshold). -/
def velocityBonus (velocity : ℚ) : ℚ := min 2 (velocity / punchThreshold)

/-- Points awarded by hitObject in src/unnamed/part_000:
Math.round(userData.points * velocityBonus). -/
def hitPoints (points : ℤ) (velocity : ℚ) : ℤ :=
  jsRound ((points : ℚ) * velocityBonus velocity)

/-- Score update of hitObject in src/unnamed/part_000:
this.score += points; this.score = Math.max(0, this.score). -/
def hitScore (score points : ℤ) (velocity : ℚ) : ℤ :=
  max 0 (score + hitPoints points velocity)

/-- Difficulty ramp of updateGameState in src/unnamed/part_000:
this.spawnRate = Math.max(0.3, 2.0 - timeElapsed * 0.03). -/
def spawnRate (elapsed : ℚ) : ℚ := max 0.3 (2.0 - elapsed * 0.03)

/-- Difficulty ramp of updateGameState in src/unnamed/part_000:
this.gameSpeed = 1.0 + timeElapsed * 0.03. -/
def gameSpeed (elapsed : ℚ) : ℚ := 1.0 + elapsed * 0.03

/-- One update tick of a live particle in updatePhysics of
src/unnamed/part_000 (life -= decay, remove when life <= 0; part_001 and
javascript.js are the same with the decay constant fixed at 0.03).
The none value means the particle has been retired (removed from the
active particle list). -/
def particleStep (decay : ℚ) : Option ℚ → Option ℚ
  | none => none
  | some life =>
    let life2 := life - decay
    if life2 ≤ 0 then none else some life2

/-- State of a particle created with initial life life0 after n update ticks. -/
def particleAfter (decay life0 : ℚ) : ℕ → Option ℚ
  | 0 => some life0
  | n + 1 => particleStep decay (particleAfter decay life0 n)

end PH

namespace WH

/-- this.punchCooldown = 300 in src/unnamed/part_001. -/
def punchCooldown : ℚ := 300

/-- Difficulty ramp of updateGameState in src/unnamed/part_001:
this.spawnRate = Math.max(0.5, 2.0 - (60 - this.timeLeft) * 0.02). -/
def spawnRate (elapsed : ℚ) : ℚ := max 0.5 (2.0 - elapsed * 0.02)

/-- Difficulty ramp of updateGameState in src/unnamed/part_001:
this.gameSpeed = 1.0 + (60 - this.timeLeft) * 0.02. -/
def gameSpeed (elapsed : ℚ) : ℚ := 1.0 + elapsed * 0.02

end WH

namespace Opt

/-- A hand sample of handLoopTick in src/javascript.js, already mapped to
screen pixels (screenX, screenY), with its timestamp in milliseconds
(performance.now() at the tick). -/
structure Sample where
  x : ℚ
  y : ℚ
  t : ℚ
  deriving DecidableEq

/-- Punch detector state of OptimizedBoxingGame: handLastSample, handVel and
lastPunchTime.  Constructor initial values: null, (0, 0) and 0. -/
structure HandState where
  lastSample : Option Sample
  velX : ℚ
  velY : ℚ
  lastPunchTime : ℚ
  deriving DecidableEq

/-- Detector state right after the OptimizedBoxingGame constructor. -/
def initHand : HandState := ⟨none, 0, 0, 0⟩

/-- A punch event: detectPunchCollision is invoked with the current hand
screen position. -/
structure PunchEvent where
  x : ℚ
  y : ℚ
  deriving DecidableEq

/-- The velocity block of handLoopTick (src/javascript.js lines 256-266):
when a previous sample exists and the time delta is positive, the raw
velocity (delta position over delta seconds) is folded into handVel with the
low-pass weights 0.6 and 0.4; otherwise handVel is unchanged. -/
def velUpdate (st : HandState) (s : Sample) : HandState :=
  match st.lastSample with
  | none => st
  | some prev =>
    let dt := (s.t - prev.t) / 1000
    if 0 < dt then
      let vx := (s.x - prev.x) / dt
      let vy := (s.y - prev.y) / dt
      ⟨st.lastSample, st.velX * 0.6 + vx * 0.4, st.velY * 0.6 + vy * 0.4,
        st.lastPunchTime⟩
    else st

/-- One tick of handLoopTick in src/javascript.js (lines 255-273) once a hand
sample is available: velocity update, unconditional handLastSample update,
then the punch check Math.hypot(velX, velY) > punchVelocityThreshold encoded
on squares (both sides nonnegative) and now - lastPunchTime > punchCooldown.
On detection lastPunchTime is set to now and detectPunchCollision is called
with the current screen position, modelled by the returned event. -/
def handTick (st : HandState) (s : Sample) : HandState × Option PunchEvent :=
  let st1 := velUpdate st s
  if st1.velX ^ 2 + st1.velY ^ 2 > punchVelocityThreshold ^ 2 ∧
      s.t - st1.lastPunchTime > punchCooldown then
    (⟨some s, st1.velX, st1.velY, s.t⟩, some ⟨s.x, s.y⟩)
  else (⟨some s, st1.velX, st1.velY, st1.lastPunchTime⟩, none)

/-- handLoopTick over a list of successive samples, collecting the emitted
punch events in order. -/
def runTicks (st : HandState) : List Sample → HandState × List PunchEvent
  | [] => (st, [])
  | s :: rest =>
    let r1 := handTick st s
    let r2 := runTicks r1.1 rest
    (r2.1, r1.2.toList ++ r2.2)

/-- The raw instantaneous velocity handLoopTick would compute for sample s
from the stored previous sample is at or below the punch threshold (squared
encoding): the hand is moving no faster than punchVelocityThreshold. -/
def RawBelow (prev : Option Sample) (s : Sample) : Prop :=
  ∀ p : Sample, prev = some p → 0 < (s.t - p.t) / 1000 →
    ((s.x - p.x) / ((s.t - p.t) / 1000)) ^ 2 +
      ((s.y - p.y) / ((s.t - p.t) / 1000)) ^ 2 ≤ punchVelocityThreshold ^ 2

/-- Every raw velocity along a sample sequence stays at or below the punch
threshold, starting from the given stored previous sample. -/
def AllBelow : Option Sample → List Sample → Prop
  | _, [] => True
  | prev, s :: rest => RawBelow prev s ∧ AllBelow (some s) rest

end Opt

namespace Opt

/-- A pooled falling object of OptimizedBoxingGame: position is the THREE
mesh position, userData carries the point value.  The id models the mesh
reference identity (the source removes objects by reference filter). -/
structure Obj where
  id : ℕ
  pos : V3
  points : ℤ
  deriving DecidableEq

/-- Collision-facing state of OptimizedBoxingGame: the active objects list
and the score. -/
structure CState where
  objects : List Obj
  score : ℤ
  deriving DecidableEq

/-- Environment of detectPunchCollision in src/javascript.js: the window
size and the external THREE camera math — project(camera) giving the ndc x
and y of a position, and applyMatrix4(camera.matrixWorldInverse) giving its
camera-space z. -/
structure Env where
  width : ℚ
  height : ℚ
  projX : V3 → ℚ
  projY : V3 → ℚ
  camZ : V3 → ℚ

/-- The per-object proximity test of detectPunchCollision in
src/javascript.js lines 313-325: project the object to ndc, map to pixels
px = (ndcX * 0.5 + 0.5) * width and py = (-ndcY * 0.5 + 0.5) * height, then
require pixel distance to the punch below punchDistanceThreshold (squared
encoding of Math.sqrt(dx*dx + dy*dy) < threshold, both sides nonnegative)
and camera-space depth below 3. -/
def punchTest (env : Env) (sx sy : ℚ) (o : Obj) : Bool :=
  let px := (env.projX o.pos * 0.5 + 0.5) * env.width
  let py := (-env.projY o.pos * 0.5 + 0.5) * env.height
  let dx := px - sx
  let dy := py - sy
  decide (dx ^ 2 + dy ^ 2 < punchDistanceThreshold ^ 2 ∧ env.camZ o.pos < 3)

/-- hitObject in src/javascript.js lines 333-342: score update by
hitScore, particle burst (modelled on the particle pool below), mesh made
invisible (returns to the pool) and removal from the active list by
reference filter (this.objects = this.objects.filter(o => o !== object)). -/
def hitObject (st : CState) (o : Obj) : CState :=
  ⟨st.objects.filter (fun o2 => decide (o2 ≠ o)), hitScore st.score o.points⟩

/-- detectPunchCollision in src/javascript.js lines 309-331: iterate the
active objects from the last index downward, hit the first object that
passes the proximity test, then break (one hit per punch).  Backward
iteration stopping at the first hit is the first match on the reversed
list. -/
def detectPunchCollision (env : Env) (st : CState) (sx sy : ℚ) : CState :=
  match st.objects.reverse.find? (punchTest env sx sy) with
  | none => st
  | some o => hitObject st o

/-- Pooling state of src/javascript.js: the per-slot visibility flags of the
pre-allocated meshes (slot index models the mesh reference) and the active
index list (this.objects, or this.particles for the particle pool). -/
structure PoolState where
  visible : List Bool
  active : List ℕ
  deriving DecidableEq

/-- this.maxObjects = 18 in src/javascript.js. -/
def maxObjects : ℕ := 18

/-- this.maxParticles = 120 in src/javascript.js. -/
def maxParticles : ℕ := 120

/-- A pool right after preparePools: n invisible slots, nothing active. -/
def initPool (n : ℕ) : PoolState := ⟨List.replicate n false, []⟩

/-- pool.find(m => !m.visible): the index of the first invisible slot. -/
def findFree : List Bool → Option ℕ
  | [] => none
  | b :: rest => if b then (findFree rest).map (fun i => i + 1) else some 0

/-- spawnObject in src/javascript.js lines 283-307: take the first invisible
pool mesh; if there is none, return with no state change (pool exhaustion is
a silent no-op); otherwise make the mesh visible and push it on the active
list. -/
def spawnFromPool (s : PoolState) : PoolState :=
  match findFree s.visible with
  | none => s
  | some i => ⟨s.visible.set i true, s.active ++ [i]⟩

/-- Retirement (hitObject lines 338-340, object despawn in updatePhysics
lines 373-377, particle death in lines 384-388): the mesh becomes invisible
(returns to the pool) and leaves the active list. -/
def retireToPool (s : PoolState) (i : ℕ) : PoolState :=
  ⟨s.visible.set i false, s.active.filter (fun j => decide (j ≠ i))⟩

/-- The particle loop of spawnParticles in src/javascript.js lines 347-364:
up to count pulls from the particle pool, stopping at the first failure
(if (!p) break). -/
def spawnBurst : ℕ → PoolState → PoolState
  | 0, s => s
  | k + 1, s =>
    match findFree s.visible with
    | none => s
    | some i => spawnBurst k ⟨s.visible.set i true, s.active ++ [i]⟩

/-- The operations the game performs on an object or particle pool. -/
inductive PoolOp where
  | spawn : PoolOp
  | burst : ℕ → PoolOp
  | retire : ℕ → PoolOp
  deriving DecidableEq

/-- One pool operation. -/
def poolStep (s : PoolState) : PoolOp → PoolState
  | PoolOp.spawn => spawnFromPool s
  | PoolOp.burst k => spawnBurst k s
  | PoolOp.retire i => retireToPool s i

/-- A sequence of pool operations from a starting state. -/
def runPool : PoolState → List PoolOp → PoolState
  | s, [] => s
  | s, op :: rest => runPool (poolStep s op) rest

/-- Pool invariant: the active indices are distinct and every one of them is
marked visible in the slot list. -/
def PoolInv (s : PoolState) : Prop :=
  s.active.Nodup ∧ ∀ i ∈ s.active, s.visible.getD i false = true

end Opt

namespace PH

/-- A falling object of BoxingGame in src/unnamed/part_000: userData carries
the point value and the hit flag.  The id models the mesh reference
identity. -/
structure Obj where
  id : ℕ
  pos : V3
  points : ℤ
  hit : Bool
  deriving DecidableEq

/-- Collision-facing state of src/unnamed/part_000: active objects and
score. -/
structure CState where
  objects : List Obj
  score : ℤ
  deriving DecidableEq

/-- hitObject in src/unnamed/part_000 lines 446-467: mark the object hit,
award round(points * min(2, velocity / punchThreshold)) through hitScore
(clamped at zero), and remove the object from the active list by reference
filter.  The in-place hit flag mutation of the removed reference is
reflected by the removal itself; list elements are matched by their value at
call time, with ids modelling reference identity. -/
def hitObject (st : CState) (o : Obj) (velocity : ℚ) : CState :=
  ⟨st.objects.filter (fun o2 => decide (o2 ≠ o)), hitScore st.score o.points velocity⟩

/-- checkDistanceCollision in src/unnamed/part_000 lines 426-444, the
screen-distance fallback of detectPunchCollision.  The camera position and
the unprojected, normalized ray direction are inputs (they come from the
external THREE unproject/normalize calls at lines 428-430).  THREE
distanceTo — the camera-to-object Euclidean distance, irrational in
general — is supplied alongside each object: pending pairs each object of
this.objects, as captured when the forEach starts, with its camera distance
r; theorems and instances about this function supply r with 0 ≤ r and
r * r = distSq cam o.pos.  The source mutates dir in place through
multiplyScalar(distance), so the scaled direction carries over to later
iterations, exactly as modelled by passing dir2 on.  The comparison of
punchPos.distanceTo(object.position) with punchRange is encoded on squares.
Note that the forEach body runs for every non-hit object: there is no break
after a successful hit. -/
def checkDistanceCollision (cam : V3) (dir : V3)
    (pending : List (Obj × ℚ)) (st : CState) : CState :=
  match pending with
  | [] => st
  | (o, r) :: rest =>
    if o.hit then checkDistanceCollision cam dir rest st
    else
      let dir2 : V3 := ⟨dir.x * r, dir.y * r, dir.z * r⟩
      let punchPos : V3 := ⟨cam.x + dir2.x, cam.y + dir2.y, cam.z + dir2.z⟩
      if distSq punchPos o.pos < punchRange ^ 2 then
        checkDistanceCollision cam dir2 rest (hitObject st o 50)
      else
        checkDistanceCollision cam dir2 rest st

end PH

namespace WH

/-- A falling object of BoxingGame in src/unnamed/part_001; the id models
the mesh reference identity. -/
structure Obj where
  id : ℕ
  pos : V3
  points : ℤ
  deriving DecidableEq

/-- State of src/unnamed/part_001 relevant to the fallback punch path:
active objects, score, lastPunchTime and the gameActive flag. -/
structure GState where
  objects : List Obj
  score : ℤ
  lastPunchTime : ℚ
  gameActive : Bool
  deriving DecidableEq

/-- The same state with lastPunchTime replaced. -/
def setLastPunch (st : GState) (t : ℚ) : GState :=
  ⟨st.objects, st.score, t, st.gameActive⟩

/-- hitObject in src/unnamed/part_001 lines 314-329: plain point value,
score clamped at zero, object removed by reference filter. -/
def hitObject (st : GState) (o : Obj) : GState :=
  ⟨st.objects.filter (fun o2 => decide (o2 ≠ o)), max 0 (st.score + o.points),
    st.lastPunchTime, st.gameActive⟩

/-- detectPunchCollision in src/unnamed/part_001 lines 263-276: the external
THREE raycaster (setFromCamera and intersectObjects at lines 268-271) is an
input returning, for a screen position and the active objects, the
intersected objects in ray order; the first intersected object is hit.  The
function contains no cooldown and no velocity test. -/
def detectPunchCollision (intersect : ℚ → ℚ → List Obj → List Obj)
    (st : GState) (x y : ℚ) : GState :=
  match intersect x y st.objects with
  | [] => st
  | o :: _ => hitObject st o

/-- simulatePunchAtPosition in src/unnamed/part_001 lines 423-425: it calls
detectPunchCollision directly, with no guard of any kind. -/
def simulatePunchAtPosition (intersect : ℚ → ℚ → List Obj → List Obj)
    (st : GState) (x y : ℚ) : GState :=
  detectPunchCollision intersect st x y

/-- The document click handler of setupEventListeners in
src/unnamed/part_001 lines 151-155: while the game is active, every click
triggers simulatePunchAtPosition at the click position — no time spacing
condition and no velocity condition appear on this path. -/
def clickHandler (intersect : ℚ → ℚ → List Obj → List Obj)
    (st : GState) (x y : ℚ) : GState :=
  if st.gameActive then simulatePunchAtPosition intersect st x y else st

end WH

/-- Modelled from the spec: the combo-multiplier scoring variant is a
feature of this repository (the README under src/markdown.md lists a combo
multiplier system, and the spec RoundState carries combo and highestCombo)
whose implementing file is not among the sources under src/ — the hitObject
versions under src/ implement the velocity-bonus and plain policies only.
Following spec section 4.4, the combo is a streak counter with a last
positive hit time. -/
structure ComboState where
  combo : ℕ
  lastPositiveHitTime : ℚ
  deriving DecidableEq

/-- Modelled from the spec: the combo update applied by a hit with the given
point value at time now (spec section 4.4): the counter increments on each
positive-value hit and resets to 1 either on a negative-value hit or when
more than comboTimeoutMs elapses since the last positive hit. -/
def comboUpdate (timeout : ℚ) (st : ComboState) (pointValue : ℤ) (now : ℚ) :
    ComboState :=
  if 0 < pointValue then
    if now - st.lastPositiveHitTime ≤ timeout then ⟨st.combo + 1, now⟩
    else ⟨1, now⟩
  else ⟨1, st.lastPositiveHitTime⟩

/-- Live particles carry their exact remaining life. -/
theorem PH.particleAfter_some (decay life0 : ℚ) (n : ℕ) (l : ℚ)
    (h : PH.particleAfter decay life0 n = some l) :
    l = life0 - n * decay := by
  induction n generalizing l with
  | zero =>
    simp [PH.particleAfter] at h
    simp [h]
  | succ n ih =>
    rw [PH.particleAfter] at h
    cases hn : PH.particleAfter decay life0 n with
    | none => rw [hn] at h; simp [PH.particleStep] at h
    | some l2 =>
      rw [hn] at h
      simp only [PH.particleStep] at h
      by_cases hle : l2 - decay ≤ 0
      · simp [hle] at h
      · simp [hle] at h
        have := ih l2 hn
        subst this
        push_cast
        linarith [h]

/-- With a nonnegative decay rate, a particle survives n ticks exactly when
its linearly decayed life is still positive (or n = 0). -/
theorem PH.particleAfter_isSome_iff (decay life0 : ℚ) (hd : 0 ≤ decay) (n : ℕ) :
    (PH.particleAfter decay life0 n).isSome = true ↔
      (n = 0 ∨ 0 < life0 - n * decay) := by
  induction n with
  | zero => simp [PH.particleAfter]
  | succ n ih =>
    rw [PH.particleAfter]
    cases hn : PH.particleAfter decay life0 n with
    | none =>
      rw [hn] at ih
      simp only [Option.isSome_none, Bool.false_eq_true, false_iff] at ih
      push_neg at ih
      obtain ⟨hn0, hlife⟩ := ih
      simp only [PH.particleStep, Option.isSome_none, Bool.false_eq_true, false_iff]
      push_neg
      refine ⟨Nat.succ_ne_zero n, ?_⟩
      have : (n : ℚ) * decay ≤ (n + 1 : ℕ) * decay := by
        push_cast
        nlinarith
      linarith
    | some l =>
      have hl := PH.particleAfter_some decay life0 n l hn
      subst hl
      simp only [PH.particleStep]
      by_cases hle : life0 - (n : ℚ) * decay - decay ≤ 0
      · simp only [hle, if_pos, Option.isSome_none, Bool.false_eq_true, false_iff]
        push_neg
        refine ⟨Nat.succ_ne_zero n, ?_⟩
        push_cast
        linarith
      · simp only [hle, if_neg, not_false_iff, Option.isSome_some, true_iff]
        right
        push_cast
        push_neg at hle
        linarith

/-- Claim C1: after every resolved hit the score becomes max(0, score + points):
never negative, clamped at zero, unbounded above; a large negative hit from
score 5 yields 0.  Covers hitObject in src/javascript.js and in
src/unnamed/part_000. -/
theorem C1_score_clamped (s p : ℤ) (hs : 0 ≤ s) :
    Opt.hitScore s p = max 0 (s + p) ∧
    0 ≤ Opt.hitScore s p ∧
    (∀ pts : ℤ, ∀ v : ℚ, PH.hitScore s pts v = max 0 (s + PH.hitPoints pts v) ∧
      0 ≤ PH.hitScore s pts v) ∧
    Opt.hitScore 5 (-20) = 0 ∧
    (∀ B : ℤ, ∃ s2 p2 : ℤ, B < Opt.hitScore s2 p2) := by
  refine ⟨rfl, le_max_left 0 _, fun pts v => ⟨rfl, le_max_left 0 _⟩, by decide, ?_⟩
  intro B
  refine ⟨max 0 B + 1, 0, ?_⟩
  have h1 : B ≤ max 0 B := le_max_right 0 B
  have h2 : (0 : ℤ) ≤ max 0 B := le_max_left 0 B
  simp only [Opt.hitScore, add_zero]
  omega

/-- Witness for C1 at score 5, points -20. -/
theorem C1_score_clamped_witness : Opt.hitScore 5 (-20) = 0 :=
  (C1_score_clamped 5 (-20) (by decide)).2.2.2.1

/-- Claim C5: the velocity-bonus policy of hitObject in src/unnamed/part_000
awards round(pointValue * min(2.0, punchSpeed / velocityThreshold)); a punch
at exactly the threshold speed at a pointValue-10 target from score 0 yields
score 10, and more generally a threshold-speed punch awards exactly the
point value. -/
theorem C5_velocity_bonus (pv : ℤ) (v : ℚ) :
    PH.hitPoints pv v = jsRound ((pv : ℚ) * min 2 (v / PH.punchThreshold)) ∧
    PH.hitPoints 10 PH.punchThreshold = 10 ∧
    PH.hitScore 0 10 PH.punchThreshold = 10 ∧
    (∀ q : ℤ, PH.hitPoints q PH.punchThreshold = q) := by
  have hthresh : ∀ q : ℤ, PH.hitPoints q PH.punchThreshold = q := by
    intro q
    have hbonus : PH.velocityBonus PH.punchThreshold = 1 := by
      norm_num [PH.velocityBonus, PH.punchThreshold]
    rw [PH.hitPoints, hbonus, mul_one, jsRound]
    rw [show (q : ℚ) + 1 / 2 = (q : ℚ) + (1 / 2 : ℚ) by norm_num]
    rw [Int.floor_eq_iff]
    constructor
    · norm_num
    · push_cast
      norm_num
  refine ⟨rfl, hthresh 10, ?_, hthresh⟩
  rw [PH.hitScore, hthresh 10]
  decide

/-- Witness for C5 at the threshold-speed scenario of the spec. -/
theorem C5_velocity_bonus_witness : PH.hitScore 0 10 PH.punchThreshold = 10 :=
  (C5_velocity_bonus 10 PH.punchThreshold).2.2.1

/-- Claim C6: the spawn interval is a monotonically non-increasing function of
elapsed round time with a floor clamp, equal to the base interval 2.0 at
elapsed 0 and to max(floor, base - t * rate) at elapsed t; game speed grows
monotonically (strictly) over the same round.  Covers updateGameState in
src/unnamed/part_000 and src/unnamed/part_001. -/
theorem C6_difficulty_ramp (t t1 t2 : ℚ) (h : t1 ≤ t2) :
    PH.spawnRate 0 = 2 ∧ WH.spawnRate 0 = 2 ∧
    PH.spawnRate t = max 0.3 (2 - t * 0.03) ∧
    WH.spawnRate t = max 0.5 (2 - t * 0.02) ∧
    PH.spawnRate t2 ≤ PH.spawnRate t1 ∧
    WH.spawnRate t2 ≤ WH.spawnRate t1 ∧
    PH.gameSpeed t1 ≤ PH.gameSpeed t2 ∧
    WH.gameSpeed t1 ≤ WH.gameSpeed t2 ∧
    (t1 < t2 → PH.gameSpeed t1 < PH.gameSpeed t2) ∧
    (t1 < t2 → WH.gameSpeed t1 < WH.gameSpeed t2) := by
  refine ⟨by norm_num [PH.spawnRate], by norm_num [WH.spawnRate],
    by norm_num [PH.spawnRate], by norm_num [WH.spawnRate],
    ?_, ?_, ?_, ?_, ?_, ?_⟩
  · exact max_le_max le_rfl (by nlinarith)
  · exact max_le_max le_rfl (by nlinarith)
  · simp only [PH.gameSpeed]; nlinarith
  · simp only [WH.gameSpeed]; nlinarith
  · intro hlt; simp only [PH.gameSpeed]; nlinarith
  · intro hlt; simp only [WH.gameSpeed]; nlinarith

/-- Witness for C6 at elapsed times 0 and 30. -/
theorem C6_difficulty_ramp_witness :
    PH.spawnRate 30 ≤ PH.spawnRate 0 ∧ PH.spawnRate 30 = max 0.3 (2 - 30 * 0.03) :=
  ⟨(C6_difficulty_ramp 30 0 30 (by norm_num)).2.2.2.2.1,
   (C6_difficulty_ramp 30 0 30 (by norm_num)).2.2.1⟩

/-- Claim C9: a particle created with life 1.0 and decay 0.03 is retired after
exactly ceil(1.0 / 0.03) = 34 update ticks, and in general (for nonnegative
decay) a particle is live after n ticks exactly while its decayed life is
still positive, so it is retired on the first tick its life reaches a value
at or below zero.  Covers updatePhysics in src/unnamed/part_000,
src/unnamed/part_001 and src/javascript.js. -/
theorem C9_particle_retirement :
    (∀ n : ℕ, n < 34 → (PH.particleAfter 0.03 1 n).isSome = true) ∧
    PH.particleAfter 0.03 1 34 = none ∧
    (⌈(1 : ℚ) / 0.03⌉ : ℤ) = 34 ∧
    (∀ decay life0 : ℚ, 0 ≤ decay → ∀ n : ℕ,
      ((PH.particleAfter decay life0 n).isSome = true ↔
        (n = 0 ∨ 0 < life0 - n * decay))) := by
  refine ⟨?_, ?_, ?_, fun decay life0 hd n => PH.particleAfter_isSome_iff decay life0 hd n⟩
  · intro n hn
    rw [PH.particleAfter_isSome_iff 0.03 1 (by norm_num) n]
    rcases Nat.eq_zero_or_pos n with h0 | _
    · exact Or.inl h0
    · right
      have : (n : ℚ) ≤ 33 := by
        have : n ≤ 33 := by omega
        exact_mod_cast this
      nlinarith
  · have h34 := PH.particleAfter_isSome_iff 0.03 1 (by norm_num) 34
    cases hv : PH.particleAfter 0.03 1 34 with
    | none => rfl
    | some l =>
      rw [hv] at h34
      simp only [Option.isSome_some, true_iff] at h34
      rcases h34 with h | h
      · exact absurd h (by norm_num)
      · norm_num at h
  · rw [Int.ceil_eq_iff]
    norm_num

/-- Claim C9 is stated without hypotheses; this instance records the value
after 33 ticks for concreteness. -/
theorem C9_particle_retirement_witness :
    (PH.particleAfter 0.03 1 33).isSome = true :=
  C9_particle_retirement.1 33 (by norm_num)

/-- Low-pass filtering two planar velocities that are both at or below a
threshold (squared encoding) yields a velocity at or below the threshold. -/
theorem Opt.smooth_bound (a b c d T : ℚ)
    (h1 : a ^ 2 + b ^ 2 ≤ T ^ 2) (h2 : c ^ 2 + d ^ 2 ≤ T ^ 2) :
    (a * 0.6 + c * 0.4) ^ 2 + (b * 0.6 + d * 0.4) ^ 2 ≤ T ^ 2 := by
  have hcs : (a * c + b * d) ^ 2 ≤ (a ^ 2 + b ^ 2) * (c ^ 2 + d ^ 2) := by
    nlinarith [sq_nonneg (a * d - b * c)]
  have hT2 : (0 : ℚ) ≤ T ^ 2 := sq_nonneg T
  have hpos1 : (0 : ℚ) ≤ a ^ 2 + b ^ 2 := by positivity
  have hpos2 : (0 : ℚ) ≤ c ^ 2 + d ^ 2 := by positivity
  have hub : (a * c + b * d) ^ 2 ≤ T ^ 2 * T ^ 2 := by nlinarith
  have hdot : a * c + b * d ≤ T ^ 2 := by
    rcases le_or_lt (a * c + b * d) 0 with h | h
    · exact le_trans h hT2
    · nlinarith [hub]
  nlinarith [h1, h2, hdot]

/-- The velocity block does not touch lastSample or lastPunchTime. -/
theorem Opt.velUpdate_frame (st : Opt.HandState) (s : Opt.Sample) :
    (Opt.velUpdate st s).lastSample = st.lastSample ∧
    (Opt.velUpdate st s).lastPunchTime = st.lastPunchTime := by
  unfold Opt.velUpdate
  split
  · exact ⟨rfl, rfl⟩
  · dsimp only
    split
    · exact ⟨rfl, rfl⟩
    · exact ⟨rfl, rfl⟩

/-- If the stored smoothed velocity and the raw velocity of the incoming
sample are at or below the punch threshold, so is the updated smoothed
velocity. -/
theorem Opt.velUpdate_below (st : Opt.HandState) (s : Opt.Sample)
    (hv : st.velX ^ 2 + st.velY ^ 2 ≤ Opt.punchVelocityThreshold ^ 2)
    (hr : Opt.RawBelow st.lastSample s) :
    (Opt.velUpdate st s).velX ^ 2 + (Opt.velUpdate st s).velY ^ 2 ≤
      Opt.punchVelocityThreshold ^ 2 := by
  unfold Opt.velUpdate
  split
  · exact hv
  · next prev heq =>
    dsimp only
    split
    · next hdt =>
      exact Opt.smooth_bound _ _ _ _ _ hv (hr prev heq hdt)
    · exact hv

/-- Branch characterization of handTick: either the punch condition holds and
an event at the sample position is emitted with lastPunchTime set to now, or
it fails and no event is emitted with lastPunchTime unchanged. -/
theorem Opt.handTick_spec (st : Opt.HandState) (s : Opt.Sample) :
    (((Opt.velUpdate st s).velX ^ 2 + (Opt.velUpdate st s).velY ^ 2 >
        Opt.punchVelocityThreshold ^ 2 ∧
      s.t - (Opt.velUpdate st s).lastPunchTime > Opt.punchCooldown) →
      Opt.handTick st s =
        (⟨some s, (Opt.velUpdate st s).velX, (Opt.velUpdate st s).velY, s.t⟩,
          some ⟨s.x, s.y⟩)) ∧
    (¬((Opt.velUpdate st s).velX ^ 2 + (Opt.velUpdate st s).velY ^ 2 >
        Opt.punchVelocityThreshold ^ 2 ∧
      s.t - (Opt.velUpdate st s).lastPunchTime > Opt.punchCooldown) →
      Opt.handTick st s =
        (⟨some s, (Opt.velUpdate st s).velX, (Opt.velUpdate st s).velY,
          (Opt.velUpdate st s).lastPunchTime⟩, none)) := by
  unfold Opt.handTick
  dsimp only
  constructor
  · intro h
    rw [if_pos h]
  · intro h
    rw [if_neg h]

/-- Core step lemma for C4: a tick whose raw velocity stays at or below the
threshold emits no event, keeps the smoothed velocity at or below the
threshold, stores the new sample, and leaves lastPunchTime unchanged. -/
theorem Opt.handTick_below (st : Opt.HandState) (s : Opt.Sample)
    (hv : st.velX ^ 2 + st.velY ^ 2 ≤ Opt.punchVelocityThreshold ^ 2)
    (hr : Opt.RawBelow st.lastSample s) :
    (Opt.handTick st s).2 = none ∧
    (Opt.handTick st s).1.velX ^ 2 + (Opt.handTick st s).1.velY ^ 2 ≤
      Opt.punchVelocityThreshold ^ 2 ∧
    (Opt.handTick st s).1.lastSample = some s ∧
    (Opt.handTick st s).1.lastPunchTime = st.lastPunchTime := by
  have hb := Opt.velUpdate_below st s hv hr
  have hf := (Opt.velUpdate_frame st s).2
  have hcond : ¬((Opt.velUpdate st s).velX ^ 2 + (Opt.velUpdate st s).velY ^ 2 >
      Opt.punchVelocityThreshold ^ 2 ∧
      s.t - (Opt.velUpdate st s).lastPunchTime > Opt.punchCooldown) := by
    intro hc
    exact absurd hc.1 (not_lt.mpr hb)
  rw [(Opt.handTick_spec st s).2 hcond]
  exact ⟨rfl, hb, rfl, hf⟩

/-- Generalized C4 induction: from any state whose smoothed velocity is at or
below the threshold, a sequence of samples whose raw velocities stay at or
below the threshold produces no punch events. -/
theorem Opt.runTicks_no_events (samples : List Opt.Sample) :
    ∀ st : Opt.HandState,
      st.velX ^ 2 + st.velY ^ 2 ≤ Opt.punchVelocityThreshold ^ 2 →
      Opt.AllBelow st.lastSample samples →
      (Opt.runTicks st samples).2 = [] := by
  induction samples with
  | nil => intro st _ _; rfl
  | cons s rest ih =>
    intro st hv hall
    obtain ⟨hraw, hrest⟩ := hall
    obtain ⟨hnone, hv2, hls2, _⟩ := Opt.handTick_below st s hv hraw
    show ((Opt.runTicks (Opt.handTick st s).1 rest).1,
      (Opt.handTick st s).2.toList ++ (Opt.runTicks (Opt.handTick st s).1 rest).2).2 = []
    rw [hnone]
    simp only [Option.toList_none, List.nil_append]
    exact ih (Opt.handTick st s).1 hv2 (by rw [hls2]; exact hrest)

/-- Claim C4: starting from detector initialization (zero smoothed velocity),
a sample sequence whose raw velocity magnitudes stay at or below
punchVelocityThreshold never emits a punch event (so collision resolution is
never invoked), and the very first sample for the slot never produces an
event, whatever it is.  Covers handLoopTick in src/javascript.js, the
detector with a smoothed velocity estimate. -/
theorem C4_below_threshold_silent (samples : List Opt.Sample)
    (h : Opt.AllBelow none samples) :
    (Opt.runTicks Opt.initHand samples).2 = [] ∧
    (∀ s : Opt.Sample, (Opt.handTick Opt.initHand s).2 = none) := by
  constructor
  · exact Opt.runTicks_no_events samples Opt.initHand
      (by norm_num [Opt.initHand, Opt.punchVelocityThreshold]) h
  · intro s
    have hr : Opt.RawBelow Opt.initHand.lastSample s := by
      intro p hp
      exact absurd hp (by simp [Opt.initHand])
    exact (Opt.handTick_below Opt.initHand s
      (by norm_num [Opt.initHand, Opt.punchVelocityThreshold]) hr).1

/-- Witness for C4: a concrete slow two-sample sequence emits nothing. -/
theorem C4_below_threshold_silent_witness :
    (Opt.runTicks Opt.initHand [⟨0, 0, 0⟩, ⟨1, 1, 1000⟩]).2 = [] := by
  refine (C4_below_threshold_silent [⟨0, 0, 0⟩, ⟨1, 1, 1000⟩] ?_).1
  refine ⟨?_, ?_, trivial⟩
  · intro p hp
    exact absurd hp (by simp)
  · intro p hp hdt
    rw [Option.some_inj] at hp
    subst hp
    norm_num [Opt.punchVelocityThreshold]

/-- Claim C3: a sample arriving less than punchCooldown after the last
accepted punch is suppressed (no event emitted, hence no collision
resolution), whatever its velocity; whenever an event is emitted, more than
punchCooldown had elapsed since the last accepted punch and lastPunchTime is
set to the current time; consequently, of two threshold-crossing samples
less than punchCooldown apart where the first is accepted, the second is
always suppressed.  Covers handLoopTick in src/javascript.js. -/
theorem C3_punch_cooldown (st : Opt.HandState) (s s2 : Opt.Sample) :
    (s.t - st.lastPunchTime < Opt.punchCooldown → (Opt.handTick st s).2 = none) ∧
    (∀ e, (Opt.handTick st s).2 = some e →
      (Opt.handTick st s).1.lastPunchTime = s.t ∧
      s.t - st.lastPunchTime > Opt.punchCooldown) ∧
    ((Opt.handTick st s).2.isSome = true → s2.t - s.t < Opt.punchCooldown →
      (Opt.handTick (Opt.handTick st s).1 s2).2 = none) := by
  have hspec := Opt.handTick_spec st s
  have hf := (Opt.velUpdate_frame st s).2
  have hemit : ∀ e, (Opt.handTick st s).2 = some e →
      (Opt.handTick st s).1.lastPunchTime = s.t ∧
      s.t - st.lastPunchTime > Opt.punchCooldown := by
    intro e he
    by_cases hcond : ((Opt.velUpdate st s).velX ^ 2 + (Opt.velUpdate st s).velY ^ 2 >
        Opt.punchVelocityThreshold ^ 2 ∧
        s.t - (Opt.velUpdate st s).lastPunchTime > Opt.punchCooldown)
    · rw [hspec.1 hcond]
      have h2 := hcond.2
      rw [hf] at h2
      exact ⟨rfl, h2⟩
    · rw [hspec.2 hcond] at he
      exact absurd he (by simp)
  refine ⟨?_, hemit, ?_⟩
  · intro hlt
    have hcond : ¬((Opt.velUpdate st s).velX ^ 2 + (Opt.velUpdate st s).velY ^ 2 >
        Opt.punchVelocityThreshold ^ 2 ∧
        s.t - (Opt.velUpdate st s).lastPunchTime > Opt.punchCooldown) := by
      intro hc
      have h2 := hc.2
      rw [hf] at h2
      linarith
    rw [hspec.2 hcond]
  · intro hsome hgap
    rcases he : (Opt.handTick st s).2 with _ | e
    · rw [he] at hsome
      exact absurd hsome (by simp)
    · have hlpt := (hemit e he).1
      have hspec2 := Opt.handTick_spec (Opt.handTick st s).1 s2
      have hf2 := (Opt.velUpdate_frame (Opt.handTick st s).1 s2).2
      have hcond2 : ¬((Opt.velUpdate (Opt.handTick st s).1 s2).velX ^ 2 +
          (Opt.velUpdate (Opt.handTick st s).1 s2).velY ^ 2 >
          Opt.punchVelocityThreshold ^ 2 ∧
          s2.t - (Opt.velUpdate (Opt.handTick st s).1 s2).lastPunchTime >
            Opt.punchCooldown) := by
        intro hc
        have h2 := hc.2
        rw [hf2, hlpt] at h2
        linarith
      rw [hspec2.2 hcond2]

/-- Witness for C3: with lastPunchTime 0, a fast sample at time 100 (less
than the 350 ms cooldown after the last accepted punch) emits no event. -/
theorem C3_punch_cooldown_witness :
    (Opt.handTick ⟨some ⟨0, 0, 0⟩, 100, 0, 0⟩ ⟨200, 0, 100⟩).2 = none :=
  (C3_punch_cooldown ⟨some ⟨0, 0, 0⟩, 100, 0, 0⟩ ⟨200, 0, 100⟩ ⟨0, 0, 0⟩).1
    (by norm_num [Opt.punchCooldown])

/-- On a duplicate-free list, filtering out one element is erasing it. -/
theorem filter_ne_eq_erase {α : Type} [DecidableEq α] (l : List α) (a : α)
    (h : l.Nodup) :
    l.filter (fun x => decide (x ≠ a)) = l.erase a := by
  rw [List.Nodup.erase_eq_filter h]
  apply List.filter_congr
  intro x _
  by_cases hxa : x = a <;> simp [hxa]

/-- Claim C2 (amended): in detectPunchCollision of src/javascript.js, at
most one target is resolved per punch event (the backward scan breaks at the
first passing target); the resolved target leaves the active set at once
(exactly one entry disappears) and a target outside the active set can never
be resolved nor reappear in it, whatever later punch events arrive.  The
duplicate-free hypothesis reflects that the active list holds distinct pool
meshes.  (The distance fallback of src/unnamed/part_000 violates the
original claim; see the counterexample.) -/
theorem C2_at_most_one_hit (env env2 : Opt.Env) (st : Opt.CState)
    (sx sy sx2 sy2 : ℚ) (hnd : st.objects.Nodup) :
    (Opt.detectPunchCollision env st sx sy = st ∨
      ∃ o : Opt.Obj, o ∈ st.objects ∧
        Opt.detectPunchCollision env st sx sy = Opt.hitObject st o ∧
        o ∉ (Opt.detectPunchCollision env st sx sy).objects ∧
        (Opt.detectPunchCollision env st sx sy).objects.length + 1 =
          st.objects.length) ∧
    (∀ st2 : Opt.CState, ∀ o : Opt.Obj, o ∉ st2.objects →
      o ∉ (Opt.detectPunchCollision env2 st2 sx2 sy2).objects) := by
  constructor
  · rcases hfind : st.objects.reverse.find? (Opt.punchTest env sx sy) with _ | o
    · left
      unfold Opt.detectPunchCollision
      rw [hfind]
    · right
      have hmem : o ∈ st.objects :=
        List.mem_reverse.mp (List.mem_of_find?_eq_some hfind)
      refine ⟨o, hmem, ?_, ?_, ?_⟩
      · unfold Opt.detectPunchCollision
        rw [hfind]
      · unfold Opt.detectPunchCollision
        rw [hfind]
        intro hin
        simp only [Opt.hitObject, List.mem_filter] at hin
        exact absurd (of_decide_eq_true hin.2) (by simp)
      · unfold Opt.detectPunchCollision
        rw [hfind]
        show (st.objects.filter (fun o2 => decide (o2 ≠ o))).length + 1 =
          st.objects.length
        rw [filter_ne_eq_erase st.objects o hnd, List.length_erase_of_mem hmem]
        have := List.length_pos_of_mem hmem
        omega
  · intro st2 o ho hin
    rcases hfind : st2.objects.reverse.find? (Opt.punchTest env2 sx2 sy2) with _ | o2
    · unfold Opt.detectPunchCollision at hin
      rw [hfind] at hin
      exact ho hin
    · unfold Opt.detectPunchCollision at hin
      rw [hfind] at hin
      simp only [Opt.hitObject, List.mem_filter] at hin
      exact ho hin.1

/-- Witness for C2 (amended) on an empty active set. -/
theorem C2_at_most_one_hit_witness :
    (⟨0, ⟨0, 0, 0⟩, 0⟩ : Opt.Obj) ∉
      (Opt.detectPunchCollision ⟨1, 1, fun _ => 0, fun _ => 0, fun _ => 0⟩
        ⟨[], 0⟩ 0 0).objects :=
  (C2_at_most_one_hit ⟨1, 1, fun _ => 0, fun _ => 0, fun _ => 0⟩
      ⟨1, 1, fun _ => 0, fun _ => 0, fun _ => 0⟩ ⟨[], 0⟩ 0 0 0 0
      List.nodup_nil).2 ⟨[], 0⟩ ⟨0, ⟨0, 0, 0⟩, 0⟩ (by simp)

/-- Claim C2 counterexample: in the distance fallback of
src/unnamed/part_000 (checkDistanceCollision) a single punch event resolves
TWO distinct targets.  Camera at (0,0,5), unit ray direction (0,0,-1), two
distinct un-hit targets at (0,0,4), each at true camera distance 1 (the
supplied distance 1 satisfies 1 * 1 = distSq and is nonnegative).  Both pass
the punchRange test, so both are hit in the same forEach: the resulting
state has both targets removed and both scored (10 points each at the
default fallback velocity 50, doubled by the velocity bonus, so score 40). -/
theorem C2_fallback_two_hits :
    ((⟨0, ⟨0, 0, 4⟩, 10, false⟩ : PH.Obj) ≠ ⟨1, ⟨0, 0, 4⟩, 10, false⟩) ∧
    (0 : ℚ) ≤ 1 ∧
    (1 : ℚ) * 1 = distSq ⟨0, 0, 5⟩ ⟨0, 0, 4⟩ ∧
    (0 : ℚ) ^ 2 + (0 : ℚ) ^ 2 + (-1 : ℚ) ^ 2 = 1 ∧
    PH.checkDistanceCollision ⟨0, 0, 5⟩ ⟨0, 0, -1⟩
        [(⟨0, ⟨0, 0, 4⟩, 10, false⟩, 1), (⟨1, ⟨0, 0, 4⟩, 10, false⟩, 1)]
        ⟨[⟨0, ⟨0, 0, 4⟩, 10, false⟩, ⟨1, ⟨0, 0, 4⟩, 10, false⟩], 0⟩ =
      ⟨[], 40⟩ := by
  refine ⟨by decide, by norm_num, by norm_num [distSq], by norm_num, ?_⟩
  have hpts : PH.hitPoints 10 50 = 20 := by
    have h1 : ((10 : ℤ) : ℚ) * PH.velocityBonus 50 + 1 / 2 = 41 / 2 := by
      norm_num [PH.velocityBonus, PH.punchThreshold]
    unfold PH.hitPoints jsRound
    rw [h1, Int.floor_eq_iff]
    norm_num
  simp only [PH.checkDistanceCollision]
  norm_num [distSq, PH.punchRange, PH.hitObject, PH.hitScore, hpts]

/-- Claim C7: the combo counter increments by exactly 1 on a positive-value
hit within comboTimeoutMs of the previous positive hit, and resets to 1 on a
negative-value hit or when more than comboTimeoutMs has elapsed since the
last positive hit; a positive hit also records its time. -/
theorem C7_combo_policy (timeout : ℚ) (st : ComboState) (pv : ℤ) (now : ℚ) :
    (0 < pv → now - st.lastPositiveHitTime ≤ timeout →
      (comboUpdate timeout st pv now).combo = st.combo + 1) ∧
    (pv < 0 → (comboUpdate timeout st pv now).combo = 1) ∧
    (0 < pv → timeout < now - st.lastPositiveHitTime →
      (comboUpdate timeout st pv now).combo = 1) ∧
    (0 < pv → (comboUpdate timeout st pv now).lastPositiveHitTime = now) := by
  refine ⟨?_, ?_, ?_, ?_⟩
  · intro hpv hle
    unfold comboUpdate
    rw [if_pos hpv, if_pos hle]
  · intro hneg
    unfold comboUpdate
    rw [if_neg (by omega : ¬(0 : ℤ) < pv)]
  · intro hpv hgt
    unfold comboUpdate
    rw [if_pos hpv, if_neg (not_le.mpr hgt)]
  · intro hpv
    unfold comboUpdate
    rw [if_pos hpv]
    by_cases hle : now - st.lastPositiveHitTime ≤ timeout
    · rw [if_pos hle]
    · rw [if_neg hle]

/-- Witness for C7: a fourth-in-a-streak positive hit inside the timeout. -/
theorem C7_combo_policy_witness :
    (comboUpdate 2000 ⟨3, 0⟩ 10 1000).combo = 4 :=
  (C7_combo_policy 2000 ⟨3, 0⟩ 10 1000).1 (by decide) (by norm_num)

/-- If findFree returns a slot, that slot is in range and invisible. -/
theorem Opt.findFree_some (v : List Bool) :
    ∀ i : ℕ, Opt.findFree v = some i → i < v.length ∧ v.getD i false = false := by
  induction v with
  | nil => intro i h; exact Option.noConfusion h
  | cons b rest ih =>
    intro i h
    rw [Opt.findFree] at h
    by_cases hb : b = true
    · rw [if_pos hb] at h
      rcases hfr : Opt.findFree rest with _ | j
      · rw [hfr] at h
        exact absurd h (by simp)
      · rw [hfr, Option.map_some'] at h
        simp only [Option.some.injEq] at h
        obtain ⟨hj1, hj2⟩ := ih j hfr
        rw [← h]
        exact ⟨Nat.succ_lt_succ hj1, by rw [List.getD_cons_succ]; exact hj2⟩
    · rw [if_neg hb] at h
      simp only [Option.some.injEq] at h
      rw [← h]
      refine ⟨Nat.succ_pos _, ?_⟩
      rw [List.getD_cons_zero]
      exact Bool.not_eq_true b ▸ hb

/-- Reading the slot that was just set. -/
theorem getD_set_self (v : List Bool) :
    ∀ i : ℕ, i < v.length → ∀ b : Bool, (v.set i b).getD i false = b := by
  induction v with
  | nil => intro i h; exact absurd h (by simp)
  | cons a rest ih =>
    intro i h b
    cases i with
    | zero => rw [List.set_cons_zero, List.getD_cons_zero]
    | succ n =>
      rw [List.set_cons_succ, List.getD_cons_succ]
      exact ih n (by simpa using h) b

/-- Reading a slot other than the one that was set. -/
theorem getD_set_other (v : List Bool) :
    ∀ i j : ℕ, j ≠ i → ∀ b : Bool, (v.set i b).getD j false = v.getD j false := by
  induction v with
  | nil => intro i j _ b; rfl
  | cons a rest ih =>
    intro i j hne b
    cases i with
    | zero =>
      cases j with
      | zero => exact absurd rfl hne
      | succ m => rw [List.set_cons_zero, List.getD_cons_succ, List.getD_cons_succ]
    | succ n =>
      cases j with
      | zero => rw [List.set_cons_succ, List.getD_cons_zero, List.getD_cons_zero]
      | succ m =>
        rw [List.set_cons_succ, List.getD_cons_succ, List.getD_cons_succ]
        exact ih n m (fun he => hne (by rw [he])) b

/-- A visible slot index is in range. -/
theorem getD_true_lt (v : List Bool) :
    ∀ i : ℕ, v.getD i false = true → i < v.length := by
  induction v with
  | nil => intro i h; exact absurd h (by simp [List.getD])
  | cons a rest ih =>
    intro i h
    cases i with
    | zero => exact Nat.succ_pos _
    | succ n =>
      rw [List.getD_cons_succ] at h
      exact Nat.succ_lt_succ (ih n h)

/-- Activating a free slot preserves the pool invariant. -/
theorem Opt.poolInv_activate (s : Opt.PoolState) (i : ℕ)
    (hf : Opt.findFree s.visible = some i) (h : Opt.PoolInv s) :
    Opt.PoolInv ⟨s.visible.set i true, s.active ++ [i]⟩ := by
  obtain ⟨hlt, hfalse⟩ := Opt.findFree_some s.visible i hf
  obtain ⟨hnd, hvis⟩ := h
  have hnotmem : i ∉ s.active := by
    intro hmem
    rw [hvis i hmem] at hfalse
    exact Bool.noConfusion hfalse
  constructor
  · rw [List.nodup_append]
    exact ⟨hnd, List.nodup_singleton i, List.disjoint_singleton.mpr hnotmem⟩
  · intro j hj
    rw [List.mem_append] at hj
    rcases hj with hj | hj
    · have hne : j ≠ i := fun he => hnotmem (he ▸ hj)
      rw [getD_set_other s.visible i j hne true]
      exact hvis j hj
    · rw [List.mem_singleton] at hj
      subst hj
      exact getD_set_self s.visible j hlt true

/-- spawnObject preserves the pool invariant. -/
theorem Opt.poolInv_spawn (s : Opt.PoolState) (h : Opt.PoolInv s) :
    Opt.PoolInv (Opt.spawnFromPool s) := by
  unfold Opt.spawnFromPool
  cases hf : Opt.findFree s.visible with
  | none => exact h
  | some i => exact Opt.poolInv_activate s i hf h

/-- A particle burst preserves the pool invariant. -/
theorem Opt.poolInv_burst (k : ℕ) :
    ∀ s : Opt.PoolState, Opt.PoolInv s → Opt.PoolInv (Opt.spawnBurst k s) := by
  induction k with
  | zero => intro s h; exact h
  | succ k ih =>
    intro s h
    unfold Opt.spawnBurst
    cases hf : Opt.findFree s.visible with
    | none => exact h
    | some i => exact ih _ (Opt.poolInv_activate s i hf h)

/-- Retirement preserves the pool invariant. -/
theorem Opt.poolInv_retire (s : Opt.PoolState) (i : ℕ) (h : Opt.PoolInv s) :
    Opt.PoolInv (Opt.retireToPool s i) := by
  obtain ⟨hnd, hvis⟩ := h
  unfold Opt.retireToPool
  constructor
  · exact List.Nodup.filter _ hnd
  · intro j hj
    rw [List.mem_filter] at hj
    obtain ⟨hjmem, hjne⟩ := hj
    have hne : j ≠ i := of_decide_eq_true hjne
    rw [getD_set_other s.visible i j hne false]
    exact hvis j hjmem

/-- Every pool operation preserves the invariant. -/
theorem Opt.poolInv_step (s : Opt.PoolState) (op : Opt.PoolOp) (h : Opt.PoolInv s) :
    Opt.PoolInv (Opt.poolStep s op) := by
  cases op with
  | spawn => exact Opt.poolInv_spawn s h
  | burst k => exact Opt.poolInv_burst k s h
  | retire i => exact Opt.poolInv_retire s i h

/-- A burst does not change the number of slots. -/
theorem Opt.spawnBurst_length (k : ℕ) :
    ∀ s : Opt.PoolState, (Opt.spawnBurst k s).visible.length = s.visible.length := by
  induction k with
  | zero => intro s; rfl
  | succ k ih =>
    intro s
    unfold Opt.spawnBurst
    cases hf : Opt.findFree s.visible with
    | none => rfl
    | some i => rw [ih]; exact List.length_set _ _ _

/-- No pool operation changes the number of slots. -/
theorem Opt.poolStep_length (s : Opt.PoolState) (op : Opt.PoolOp) :
    (Opt.poolStep s op).visible.length = s.visible.length := by
  cases op with
  | spawn =>
    show (Opt.spawnFromPool s).visible.length = _
    unfold Opt.spawnFromPool
    cases hf : Opt.findFree s.visible with
    | none => rfl
    | some i => exact List.length_set _ _ _
  | burst k => exact Opt.spawnBurst_length k s
  | retire i => exact List.length_set _ _ _

/-- Any operation sequence preserves the invariant and the slot count. -/
theorem Opt.runPool_inv (ops : List Opt.PoolOp) :
    ∀ s : Opt.PoolState, Opt.PoolInv s →
      Opt.PoolInv (Opt.runPool s ops) ∧
      (Opt.runPool s ops).visible.length = s.visible.length := by
  induction ops with
  | nil => intro s h; exact ⟨h, rfl⟩
  | cons op rest ih =>
    intro s h
    obtain ⟨h1, h2⟩ := ih (Opt.poolStep s op) (Opt.poolInv_step s op h)
    refine ⟨h1, ?_⟩
    show (Opt.runPool (Opt.poolStep s op) rest).visible.length = s.visible.length
    rw [h2]
    exact Opt.poolStep_length s op

/-- Under the invariant, the active count is bounded by the slot count. -/
theorem Opt.poolInv_length (s : Opt.PoolState) (h : Opt.PoolInv s) :
    s.active.length ≤ s.visible.length := by
  obtain ⟨hnd, hvis⟩ := h
  have hcard : s.active.toFinset.card = s.active.length :=
    List.toFinset_card_of_nodup hnd
  have hsub : s.active.toFinset ⊆ Finset.range s.visible.length := by
    intro i hi
    rw [List.mem_toFinset] at hi
    rw [Finset.mem_range]
    exact getD_true_lt s.visible i (hvis i hi)
  calc s.active.length = s.active.toFinset.card := hcard.symm
    _ ≤ (Finset.range s.visible.length).card := Finset.card_le_card hsub
    _ = s.visible.length := Finset.card_range _

/-- Claim C8: a spawn requested with no free pool slot is a silent no-op
(spawnObject returns before any state change); a particle burst stops
emitting once the particle pool is exhausted; consequently, over every
sequence of spawn, burst and retire operations from the freshly prepared
pools of src/javascript.js, the active object count never exceeds
maxObjects = 18 and the active particle count never exceeds
maxParticles = 120. -/
theorem C8_pool_exhaustion_bounds :
    (∀ s : Opt.PoolState, Opt.findFree s.visible = none →
      Opt.spawnFromPool s = s) ∧
    (∀ s : Opt.PoolState, ∀ k : ℕ, Opt.findFree s.visible = none →
      Opt.spawnBurst k s = s) ∧
    (∀ ops : List Opt.PoolOp,
      (Opt.runPool (Opt.initPool Opt.maxObjects) ops).active.length ≤
        Opt.maxObjects) ∧
    (∀ ops : List Opt.PoolOp,
      (Opt.runPool (Opt.initPool Opt.maxParticles) ops).active.length ≤
        Opt.maxParticles) := by
  have hinit : ∀ n : ℕ, Opt.PoolInv (Opt.initPool n) := by
    intro n
    refine ⟨List.nodup_nil, ?_⟩
    intro i hi
    exact absurd hi (List.not_mem_nil i)
  have hgen : ∀ n : ℕ, ∀ ops : List Opt.PoolOp,
      (Opt.runPool (Opt.initPool n) ops).active.length ≤ n := by
    intro n ops
    obtain ⟨hinv, hlen⟩ := Opt.runPool_inv ops (Opt.initPool n) (hinit n)
    have hb := Opt.poolInv_length _ hinv
    rw [hlen] at hb
    simpa [Opt.initPool] using hb
  refine ⟨?_, ?_, fun ops => hgen Opt.maxObjects ops,
    fun ops => hgen Opt.maxParticles ops⟩
  · intro s h
    unfold Opt.spawnFromPool
    rw [h]
  · intro s k h
    cases k with
    | zero => rfl
    | succ k =>
      unfold Opt.spawnBurst
      rw [h]

/-- Witness for C8: a full one-slot pool ignores a spawn, and two spawns
into the fresh object pool stay within the bound. -/
theorem C8_pool_exhaustion_bounds_witness :
    Opt.spawnFromPool ⟨[true], [0]⟩ = ⟨[true], [0]⟩ ∧
    (Opt.runPool (Opt.initPool Opt.maxObjects)
      [Opt.PoolOp.spawn, Opt.PoolOp.spawn]).active.length ≤ Opt.maxObjects :=
  ⟨C8_pool_exhaustion_bounds.1 ⟨[true], [0]⟩ (by rfl),
   C8_pool_exhaustion_bounds.2.2.1 [Opt.PoolOp.spawn, Opt.PoolOp.spawn]⟩

/-- Claim C10: a punch injected through the manual fallback path of
src/unnamed/part_001 (the document click handler calling
simulatePunchAtPosition) triggers collision resolution unconditionally while
a round is active: the result never depends on lastPunchTime and never
updates it (no punchCooldown check), no velocity enters the path at all, and
concretely two fallback punches 100 ms apart — less than the 300 ms
punchCooldown — each resolve and score a distinct target. -/
theorem C10_fallback_unconditional :
    (∀ intersect : ℚ → ℚ → List WH.Obj → List WH.Obj, ∀ st : WH.GState,
      ∀ x y t : ℚ,
      (WH.clickHandler intersect st x y).lastPunchTime = st.lastPunchTime ∧
      WH.clickHandler intersect (WH.setLastPunch st t) x y =
        WH.setLastPunch (WH.clickHandler intersect st x y) t) ∧
    ((100 : ℚ) - 0 < WH.punchCooldown ∧
      WH.clickHandler
          (fun px _ objs => objs.filter (fun o => decide (o.pos.x = px)))
          (WH.clickHandler
            (fun px _ objs => objs.filter (fun o => decide (o.pos.x = px)))
            ⟨[⟨0, ⟨1, 0, -10⟩, 10⟩, ⟨1, ⟨2, 0, -10⟩, 50⟩], 0, 0, true⟩ 1 0)
          2 0 =
        ⟨[], 60, 0, true⟩) := by
  constructor
  · intro intersect st x y t
    cases hga : st.gameActive with
    | false =>
      constructor
      · simp [WH.clickHandler, hga]
      · simp [WH.clickHandler, WH.setLastPunch, hga]
    | true =>
      cases h : intersect x y st.objects with
      | nil =>
        constructor
        · simp [WH.clickHandler, WH.simulatePunchAtPosition,
            WH.detectPunchCollision, hga, h]
        · simp [WH.clickHandler, WH.simulatePunchAtPosition,
            WH.detectPunchCollision, WH.setLastPunch, hga, h]
      | cons o rest =>
        constructor
        · simp [WH.clickHandler, WH.simulatePunchAtPosition,
            WH.detectPunchCollision, WH.hitObject, hga, h]
        · simp [WH.clickHandler, WH.simulatePunchAtPosition,
            WH.detectPunchCollision, WH.setLastPunch, WH.hitObject, hga, h]
  · constructor
    · norm_num [WH.punchCooldown]
    · norm_num [WH.clickHandler, WH.simulatePunchAtPosition,
        WH.detectPunchCollision, WH.hitObject, List.filter]

/-- Witness for C10: the fallback path leaves lastPunchTime untouched. -/
theorem C10_fallback_unconditional_witness :
    (WH.clickHandler (fun _ _ objs => objs)
      ⟨[⟨0, ⟨1, 0, -10⟩, 10⟩], 0, 7, true⟩ 1 0).lastPunchTime = 7 :=
  (C10_fallback_unconditional.1 (fun _ _ objs => objs)
    ⟨[⟨0, ⟨1, 0, -10⟩, 10⟩], 0, 7, true⟩ 1 0 0).1
